import Mathlib

/-!
Verification model of the Sparkify data-lake repository.

The repository has two Python sources:

* `etl.py` — a PySpark batch job: it reads two JSON datasets (`log_data`,
  `song_data`) with explicit permissive schemas, derives five output tables
  (`songs`, `artists`, `users`, `time`, `songplays`) and writes each one as
  parquet with overwrite mode, then reads every table back and logs its row
  count, swallowing per-table read errors.
* `run.py` — a launcher: it uploads `etl.py` and `dl.cfg` to an S3 bucket
  (catching per-file client errors) and then requests an EMR cluster that runs
  the job as a single step.

The embedding below models a Spark DataFrame as a Lean list of typed rows.
Nullable columns of the declared read schemas become `Option` fields; a field
that is missing or malformed under PERMISSIVE read mode is `none`.  The two
`FloatType` columns of each input schema are modelled as exact `Option Int`
values: no verified property computes with them, they are only carried along
and compared for whole-row equality.  Output parquet directories are modelled
as the fields of a `Store` structure; a write with mode `overwrite` replaces
the field.  Timestamps are modelled in epoch milliseconds (UTC session
timezone), including the legacy week-year re-parse that the job's literal
format string triggers on the pinned Spark 2.4.5, and Spark's
partition-dependent `monotonically_increasing_id` is
modelled explicitly from its documented semantics (partition index in the
upper bits, record number within the partition in the lower 33 bits).
-/

namespace Sparkify

/-- One `log_data` record under the explicit read schema of `etl.py`
(lines 21-39).  `StringType` fields become `Option String`, `IntegerType`
fields `Option Int`, and the two `FloatType` fields (`length`,
`registration`) are modelled as exact `Option Int` values.  A missing or
malformed field is `none` (PERMISSIVE read mode, spec section 4.1). -/
structure LogEvent where
  artist : Option String
  auth : Option String
  firstName : Option String
  gender : Option String
  itemInSession : Option Int
  lastName : Option String
  length : Option Int
  level : Option String
  location : Option String
  method : Option String
  page : Option String
  registration : Option Int
  sessionId : Option Int
  song : Option String
  status : Option Int
  ts : Option String
  userAgent : Option String
  userId : Option String
deriving DecidableEq

/-- One `song_data` record under the explicit read schema of `etl.py`
(lines 40-51), with the same column-type conventions as `LogEvent`. -/
structure SongRecord where
  artist_id : Option String
  artist_latitude : Option Int
  artist_location : Option String
  artist_longitude : Option Int
  artist_name : Option String
  duration : Option Int
  num_songs : Option Int
  song_id : Option String
  title : Option String
  year : Option Int
deriving DecidableEq

/-- Row of the `songs` output table: the projection
`(song_id, title, artist_id, year, duration)` of `etl.py` line 136. -/
structure SongRow where
  song_id : Option String
  title : Option String
  artist_id : Option String
  year : Option Int
  duration : Option Int
deriving DecidableEq

/-- Row of the `artists` output table: the rename-projection of
`etl.py` lines 143-145. -/
structure ArtistRow where
  artist_id : Option String
  name : Option String
  location : Option String
  latitude : Option Int
  longitude : Option Int
deriving DecidableEq

/-- Row of the `users` output table: the rename-projection of
`etl.py` lines 82-83. -/
structure UserRow where
  user_id : Option String
  first_name : Option String
  last_name : Option String
  gender : Option String
  level : Option String
deriving DecidableEq

/-- Row of the `time` output table (`etl.py` lines 92-95).  `start_time` is
an epoch-millisecond value; the derived calendar fields are `IntegerType`
columns.  All fields are null when the event's `ts` string is not numeric. -/
structure TimeRow where
  start_time : Option Nat
  hour : Option Int
  day : Option Int
  week : Option Int
  month : Option Int
  year : Option Int
  weekday : Option Int
deriving DecidableEq

/-- Row of the `songplays` output table (`etl.py` lines 108-112). -/
structure SongplayRow where
  songplay_id : Nat
  start_time : Option Nat
  user_id : Option String
  level : Option String
  song_id : Option String
  artist_id : Option String
  session_id : Option Int
  location : Option String
  user_agent : Option String
deriving DecidableEq

/-- Accumulator loop for `parseDecimalNat`. -/
def digitsToNatAux : Nat → List Char → Option Nat
  | acc, [] => some acc
  | acc, c :: cs =>
      if '0' ≤ c ∧ c ≤ '9' then digitsToNatAux (10 * acc + (c.toNat - 48)) cs
      else none

/-- Numeric cast of a textual column, as used by `df["ts"]/1000` on the
string column `ts` (`etl.py` line 91).  The `ts` values of the log data are
unsigned decimal integer strings (epoch milliseconds); such a string casts to
its exact numeric value (they are below 2 to the 53rd, so the double cast is
exact), and a non-numeric string casts to null.  Only canonical unsigned
decimal strings are modelled as numeric. -/
def parseDecimalNat (s : String) : Option Nat :=
  match s.data with
  | [] => none
  | cs => digitsToNatAux 0 cs

/-- Civil date (year, month, day) of a day count since 1970-01-01, for the
proleptic Gregorian calendar in UTC.  This is the standard era-based
conversion used to model Spark's `year`, `month` and `dayofmonth`. -/
def civilFromDays (days : Nat) : Nat × Nat × Nat :=
  let z := days + 719468
  let era := z / 146097
  let doe := z % 146097
  let yoe := (doe - doe / 1460 + doe / 36524 - doe / 146097) / 365
  let y := yoe + era * 400
  let doy := doe - (365 * yoe + yoe / 4 - yoe / 100)
  let mp := (5 * doy + 2) / 153
  let d := doy - (153 * mp + 2) / 5 + 1
  let m := if mp < 10 then mp + 3 else mp - 9
  (if m ≤ 2 then y + 1 else y, m, d)

/-- Day count since 1970-01-01 of a civil (year, month, day); inverse of
`civilFromDays` for post-1970 dates. -/
def daysFromCivil (y m d : Nat) : Nat :=
  let yAdj := if m ≤ 2 then y - 1 else y
  let era := yAdj / 400
  let yoe := yAdj % 400
  let mp := if 2 < m then m - 3 else m + 9
  let doy := (153 * mp + 2) / 5 + d - 1
  let doe := yoe * 365 + yoe / 4 - yoe / 100 + doy
  era * 146097 + doe - 719468

/-- Spark `F.year` on a timestamp of `sec` epoch seconds (UTC). -/
def sparkYear (sec : Nat) : Int := Int.ofNat (civilFromDays (sec / 86400)).1

/-- Spark `F.month` on a timestamp of `sec` epoch seconds (UTC). -/
def sparkMonth (sec : Nat) : Int := Int.ofNat (civilFromDays (sec / 86400)).2.1

/-- Spark `F.dayofmonth` on a timestamp of `sec` epoch seconds (UTC). -/
def sparkDay (sec : Nat) : Int := Int.ofNat (civilFromDays (sec / 86400)).2.2

/-- Spark `F.hour` on a timestamp of `sec` epoch seconds (UTC). -/
def sparkHour (sec : Nat) : Int := Int.ofNat (sec / 3600 % 24)

/-- Spark `F.dayofweek` on a timestamp of `sec` epoch seconds: 1 = Sunday
through 7 = Saturday (1970-01-01 was a Thursday, hence the offset 4). -/
def sparkDayOfWeek (sec : Nat) : Int := Int.ofNat ((sec / 86400 + 4) % 7 + 1)

/-- Spark `F.weekofyear` on a timestamp of `sec` epoch seconds: the ISO-8601
week number, computed as the one-based week index of the Thursday of the
timestamp's Monday-based week within that Thursday's calendar year. -/
def sparkWeekOfYear (sec : Nat) : Int :=
  let days := sec / 86400
  let dow0 := (days + 3) % 7
  let thu := days + 3 - dow0
  let jan1 := daysFromCivil (civilFromDays thu).1 1 1
  Int.ofNat ((thu - jan1) / 7 + 1)

/-- The filter of `etl.py` line 78: `F.col("page") == "NextSong"`.  SQL
equality against a null `page` is null, which the `where` clause drops, so
only rows whose `page` is literally the string `NextSong` are kept. -/
def isNextSong (e : LogEvent) : Bool := e.page == some "NextSong"

/-- Loop of `dropDuplicates`: keeps the first occurrence of each row value,
remembering the rows already emitted in `seen`. -/
def dedupAux {α : Type} [DecidableEq α] : List α → List α → List α
  | [], _ => []
  | a :: l, seen =>
      if a ∈ seen then dedupAux l seen else a :: dedupAux l (a :: seen)

/-- Spark `DataFrame.dropDuplicates()` with no column argument: removes rows
that are exact duplicates of an earlier row across all columns.  Spark does
not pin the surviving order; this model keeps first occurrences in input
order, and every property proved below about a deduplicated table is
order-insensitive (no-duplicate-rows and membership). -/
def dropDuplicates {α : Type} [DecidableEq α] (l : List α) : List α :=
  dedupAux l []

/-- Calendar year (UTC) of an epoch second. -/
def yearOfSec (sec : Nat) : Nat := (civilFromDays (sec / 86400)).1

/-- Epoch day of the Sunday on or before the given epoch day (Sunday is the
first day of the week in the US locale).  1970-01-01 (epoch day 0) was a
Thursday, so the Sunday-based day-of-week index of epoch day `d` is
`(d + 4) % 7`. -/
def sundayOnOrBefore (d : Nat) : Nat := d - (d + 4) % 7

/-- Epoch second produced by the legacy week-year re-parse of a formatted
timestamp: the date part snaps to the first day of week 1 of the week-year
(with the US-locale settings that is the Sunday on or before January 1,
since the first week is the week containing January 1), while the
time-of-day part of the parsed string is kept.  The week-year read from the
string is the calendar year of the formatted second. -/
def weekYearSnapSec (sec : Nat) : Nat :=
  86400 * sundayOnOrBefore (daysFromCivil (yearOfSec sec) 1 1) + sec % 86400

/-- Projection of one filtered log event onto a `users` row
(`etl.py` lines 82-83). -/
def userRowOf (e : LogEvent) : UserRow :=
  { user_id := e.userId
    first_name := e.firstName
    last_name := e.lastName
    gender := e.gender
    level := e.level }

/-- The `users` table (`etl.py` lines 82-84): rename-projection of the
filtered events followed by `dropDuplicates()`. -/
def usersTable (events : List LogEvent) : List UserRow :=
  dropDuplicates ((events.filter isNextSong).map userRowOf)

/-- The `start_time` column of `etl.py` line 91, in epoch milliseconds:
`to_timestamp(from_unixtime(ts/1000), format = "YYYY-MM-dd HH:mm:ss")`.
The string `ts` casts to a double (null when non-numeric); `from_unixtime`
casts that double to a whole number of epoch seconds — truncating the
fractional milliseconds — and formats that second as
`yyyy-MM-dd HH:mm:ss`.  `to_timestamp` then re-parses the string with the
given format, whose capital `YYYY` is the *week-year* pattern: under the
Spark 2.4.5 pinned by `run.py` (EMR 5.30.0), the legacy `SimpleDateFormat`
parse sets the week date (week-year, week 1, first day of the US-locale
week), overriding the parsed month and day — the date snaps to the Sunday
on or before January 1 of the week-year (which the string makes equal to
the calendar year of the formatted second) and only the time of day is
kept.  In epoch milliseconds the value is therefore
`1000 * weekYearSnapSec (ms / 1000)`.  (Epoch-day arithmetic is carried in
`Nat`; the snap first leaves the post-1970 range for week-year 1970 itself,
decades below any timestamp of this dataset.) -/
def startTimeOf (e : LogEvent) : Option Nat :=
  (e.ts.bind parseDecimalNat).map (fun ms => 1000 * weekYearSnapSec (ms / 1000))

/-- Projection of one filtered log event onto a `time` row
(`etl.py` lines 92-95): `start_time` plus the calendar fields Spark derives
from it.  They are derived from the `start_time` column, i.e. from the
snapped second, so for instance the weekday column is always Sunday. -/
def timeRowOf (e : LogEvent) : TimeRow :=
  let sec := (e.ts.bind parseDecimalNat).map (fun ms => weekYearSnapSec (ms / 1000))
  { start_time := startTimeOf e
    hour := sec.map sparkHour
    day := sec.map sparkDay
    week := sec.map sparkWeekOfYear
    month := sec.map sparkMonth
    year := sec.map sparkYear
    weekday := sec.map sparkDayOfWeek }

/-- The `time` table (`etl.py` lines 92-96): the derived columns of the
filtered events followed by `dropDuplicates()`. -/
def timeTable (events : List LogEvent) : List TimeRow :=
  dropDuplicates ((events.filter isNextSong).map timeRowOf)

/-- Projection of one catalog record onto a `songs` row (`etl.py` line 136). -/
def songRowOf (r : SongRecord) : SongRow :=
  { song_id := r.song_id
    title := r.title
    artist_id := r.artist_id
    year := r.year
    duration := r.duration }

/-- The `songs` table (`etl.py` line 136): projection of the catalog records
followed by `dropDuplicates()`. -/
def songsTable (records : List SongRecord) : List SongRow :=
  dropDuplicates (records.map songRowOf)

/-- Projection of one catalog record onto an `artists` row
(`etl.py` lines 143-145). -/
def artistRowOf (r : SongRecord) : ArtistRow :=
  { artist_id := r.artist_id
    name := r.artist_name
    location := r.artist_location
    latitude := r.artist_latitude
    longitude := r.artist_longitude }

/-- The `artists` table (`etl.py` lines 143-146): rename-projection of the
catalog records followed by `dropDuplicates()`. -/
def artistsTable (records : List SongRecord) : List ArtistRow :=
  dropDuplicates (records.map artistRowOf)

/-- The join predicate of `etl.py` line 103: `df.song == df_songs.title`.
SQL equality is null-rejecting: the inner join keeps a pair only when both
sides are non-null and equal. -/
def titleMatches (e : LogEvent) (s : SongRow) : Bool :=
  match e.song, s.title with
  | some a, some b => a == b
  | _, _ => false

/-- The inner join of `etl.py` line 103, event-major: each filtered event is
paired with every row of the read-back `songs` table whose `title` equals the
event's `song`.  Events matching no title contribute nothing. -/
def joinedRows (songs : List SongRow) (events : List LogEvent) :
    List (LogEvent × SongRow) :=
  (events.filter isNextSong).flatMap
    (fun e => (songs.filter (fun s => titleMatches e s)).map (fun s => (e, s)))

/-- Partition stride of Spark's `monotonically_increasing_id`: the generated
64-bit id is the partition index in the upper bits and the record number
within the partition in the lower 33 bits, so consecutive partitions are
2 to the 33rd apart. -/
def PART_SHIFT : Nat := 2 ^ 33

/-- Ids `base, base+1, ...` attached to the records of one partition. -/
def withIdsFrom {α : Type} (base : Nat) : List α → List (α × Nat)
  | [] => []
  | a :: l => (a, base) :: withIdsFrom (base + 1) l

/-- `monotonically_increasing_id` over the partitions numbered from `p`:
the record at index `i` of partition `q` receives id `q * PART_SHIFT + i`,
and the rows are laid out in partition order. -/
def midPartsFrom {α : Type} (p : Nat) : List (List α) → List (α × Nat)
  | [] => []
  | rows :: rest => withIdsFrom (p * PART_SHIFT) rows ++ midPartsFrom (p + 1) rest

/-- `monotonically_increasing_id` over a partitioned dataset
(partitions numbered from 0). -/
def midWithIds {α : Type} (parts : List (List α)) : List (α × Nat) :=
  midPartsFrom 0 parts

/-- Projection of one joined pair onto a `songplays` row
(`etl.py` lines 104 and 108-112): `songplay_id` is
`monotonically_increasing_id() + 1`; `song_id` and `artist_id` come from the
`songs` side of the join, every other column from the log event. -/
def songplayRowOf (es : LogEvent × SongRow) (mid : Nat) : SongplayRow :=
  { songplay_id := mid + 1
    start_time := startTimeOf es.1
    user_id := es.1.userId
    level := es.1.level
    song_id := es.2.song_id
    artist_id := es.2.artist_id
    session_id := es.1.sessionId
    location := es.1.location
    user_agent := es.1.userAgent }

/-- The `songplays` table built from a concrete partition layout of the
joined rows.  The layout is chosen by the engine, not by `etl.py`; every
theorem below either holds for all layouts whose flattening is the join
result, or exhibits a specific layout. -/
def songplaysOfParts (parts : List (List (LogEvent × SongRow))) :
    List SongplayRow :=
  (midWithIds parts).map (fun x => songplayRowOf x.1 x.2)

/-- A partition layout chosen by the engine for the joined rows. -/
abbrev Partitioner := List (LogEvent × SongRow) → List (List (LogEvent × SongRow))

/-- The single-partition layout (a small local run). -/
def singlePartition : Partitioner := fun l => [l]

/-- The five parquet output directories, as fields of one store.  A parquet
write with mode `overwrite` replaces the field. -/
structure Store where
  songs : List SongRow
  artists : List ArtistRow
  users : List UserRow
  time : List TimeRow
  songplays : List SongplayRow
deriving DecidableEq

/-- `process_song_data` (`etl.py` lines 119-150): write `songs`
(lines 136-139), then write `artists` (lines 143-148). -/
def process_song_data (records : List SongRecord) (s : Store) : Store :=
  let s1 := { s with songs := songsTable records }
  { s1 with artists := artistsTable records }

/-- Failure modes of the songplays stage of `process_log_data`: the read-back
of the `songs` parquet (line 102), the join and id assignment
(lines 103-104), or the `songplays` write (lines 114-115). -/
inductive SongplaysStageError where
  | readBack
  | joinOrIds
  | writeOut
deriving DecidableEq

/-- First half of `process_log_data` (`etl.py` lines 77-99): filter the log
events, write the `users` table, then write the `time` table. -/
def logStageUsersTime (events : List LogEvent) (s : Store) : Store :=
  let s1 := { s with users := usersTable events }
  { s1 with time := timeTable events }

/-- Second half of `process_log_data` (`etl.py` lines 101-115): read the
`songs` table back from the store, join, assign ids, and write `songplays`.
`fail` injects an environment failure of this stage; the stage touches no
store field other than `songplays`, and on failure the error propagates
(`etl.py` catches nothing here). -/
def logStageSongplays (π : Partitioner) (events : List LogEvent)
    (fail : Option SongplaysStageError) (s : Store) :
    Store × Option SongplaysStageError :=
  match fail with
  | some err => (s, some err)
  | none =>
      ({ s with songplays := songplaysOfParts (π (joinedRows s.songs events)) },
       none)

/-- `process_log_data` (`etl.py` lines 65-117): users and time are written
first, then the songplays stage runs. -/
def process_log_data (π : Partitioner) (events : List LogEvent)
    (fail : Option SongplaysStageError) (s : Store) :
    Store × Option SongplaysStageError :=
  logStageSongplays π events fail (logStageUsersTime events s)

/-- The transform part of `main` (`etl.py` lines 159-162) on a run where no
step fails: `process_song_data` then `process_log_data`
(`clearCache` has no observable effect in this model). -/
def mainRun (π : Partitioner) (records : List SongRecord)
    (events : List LogEvent) (s : Store) : Store :=
  (process_log_data π events none (process_song_data records s)).1

/-- The table-name list of `etl.py` line 17. -/
def tables : List String := ["songs", "artists", "users", "time", "songplays"]

/-- One line produced by the count-and-report loop: either the row-count
message of `logging.info` or the caught exception of `logging.error`. -/
inductive LogEntry where
  | rowCount (table : String) (rows : Nat)
  | readError (message : String)
deriving DecidableEq

/-- The log line the loop body of `etl.py` lines 165-170 produces for one
table, given the outcome of reading that table back. -/
def countLogOf (readBack : String → Except String Nat) (t : String) : LogEntry :=
  match readBack t with
  | .ok n => .rowCount t n
  | .error m => .readError m

/-- One iteration of the count loop with its `try`/`except`: the body reads
the table and logs its count; any exception is caught and logged as an
error, so the iteration itself never fails. -/
def tryCountTable (readBack : String → Except String Nat) (t : String) :
    Except String LogEntry :=
  match (readBack t).map (fun n => LogEntry.rowCount t n) with
  | .ok entry => .ok entry
  | .error m => .ok (.readError m)

/-- The count-and-report loop of `etl.py` lines 165-170 over all five
tables, in the exception monad of the surrounding process. -/
def countReportPhase (readBack : String → Except String Nat) :
    Except String (List LogEntry) :=
  tables.foldlM
    (fun acc t => (tryCountTable readBack t).map (fun entry => acc ++ [entry]))
    []

/-- `main` of `etl.py` (lines 152-172): the transform run followed by the
count-and-report phase; an uncaught exception of the phase would be the
process outcome. -/
def etlMain (π : Partitioner) (records : List SongRecord)
    (events : List LogEvent) (readBack : String → Except String Nat)
    (s : Store) : Except String (Store × List LogEntry) :=
  let s1 := mainRun π records events s
  match countReportPhase readBack with
  | .ok logs => .ok (s1, logs)
  | .error m => .error m

/-- Return value of a successful S3 upload call in `run.py`. -/
structure S3Response where
  body : String
deriving DecidableEq

/-- The `files` list of `run.py` line 17. -/
def launcherFiles : List String := ["etl.py", "dl.cfg"]

/-- The upload loop of `run.py` lines 39-46, with the Python binding of the
local variable `response` made explicit: each file is attempted in order; on
success `response` is (re)bound to the call's return value, on a client
error the exception is printed and `response` keeps its previous binding
(possibly still unbound).  Returns the files attempted and the final
binding of `response`. -/
def uploadLoop (upl : String → Except String S3Response) :
    List String → Option S3Response → List String × Option S3Response
  | [], resp => ([], resp)
  | f :: rest, resp =>
      let resp' :=
        match upl f with
        | .ok r => some r
        | .error _ => resp
      let res := uploadLoop upl rest resp'
      (f :: res.1, res.2)

/-- `upload_files` of `run.py` (lines 21-48): run the upload loop over both
files, then `return response`.  If every upload failed, `response` was never
bound and the `return` statement itself raises an unbound-local error, which
no caller catches. -/
def upload_files (upl : String → Except String S3Response) :
    List String × Except String S3Response :=
  let res := uploadLoop upl launcherFiles none
  (res.1,
   match res.2 with
   | some r => .ok r
   | none => .error "UnboundLocalError: local variable response referenced before assignment")

/-- Outcome of the launcher `main`. -/
structure LaunchResult where
  clusterCreated : Bool
deriving DecidableEq

/-- `main` of `run.py` (lines 118-126): `upload_files` then
`create_emr_cluster()`.  An exception escaping `upload_files` propagates and
the cluster-creation call is never reached. -/
def run_main (upl : String → Except String S3Response) :
    Except String LaunchResult :=
  match (upload_files upl).2 with
  | .ok _ => .ok { clusterCreated := true }
  | .error m => .error m

/-! ### Generic facts about `dropDuplicates` -/

theorem mem_of_mem_dedupAux {α : Type} [DecidableEq α] :
    ∀ (l seen : List α) (a : α), a ∈ dedupAux l seen → a ∈ l := by
  intro l
  induction l with
  | nil => intro seen a h; simp [dedupAux] at h
  | cons b t ih =>
      intro seen a h
      by_cases hb : b ∈ seen
      · simp [dedupAux, hb] at h
        exact List.mem_cons_of_mem b (ih seen a h)
      · simp [dedupAux, hb] at h
        rcases h with h | h
        · exact h ▸ List.mem_cons_self b t
        · exact List.mem_cons_of_mem b (ih (b :: seen) a h)

theorem not_mem_seen_of_mem_dedupAux {α : Type} [DecidableEq α] :
    ∀ (l seen : List α) (a : α), a ∈ dedupAux l seen → a ∉ seen := by
  intro l
  induction l with
  | nil => intro seen a h; simp [dedupAux] at h
  | cons b t ih =>
      intro seen a h
      by_cases hb : b ∈ seen
      · simp [dedupAux, hb] at h
        exact ih seen a h
      · simp [dedupAux, hb] at h
        rcases h with h | h
        · exact h ▸ hb
        · intro hs
          exact ih (b :: seen) a h (List.mem_cons_of_mem b hs)

theorem nodup_dedupAux {α : Type} [DecidableEq α] :
    ∀ (l seen : List α), (dedupAux l seen).Nodup := by
  intro l
  induction l with
  | nil => intro seen; simp [dedupAux]
  | cons b t ih =>
      intro seen
      by_cases hb : b ∈ seen
      · simpa [dedupAux, hb] using ih seen
      · simp only [dedupAux, hb, if_false]
        refine List.nodup_cons.mpr ⟨?_, ih (b :: seen)⟩
        intro hmem
        exact not_mem_seen_of_mem_dedupAux t (b :: seen) b hmem
          (List.mem_cons_self b seen)

theorem nodup_dropDuplicates {α : Type} [DecidableEq α] (l : List α) :
    (dropDuplicates l).Nodup :=
  nodup_dedupAux l []

theorem mem_of_mem_dropDuplicates {α : Type} [DecidableEq α] {l : List α}
    {a : α} (h : a ∈ dropDuplicates l) : a ∈ l :=
  mem_of_mem_dedupAux l [] a h

/-! ### Facts about the id assignment `monotonically_increasing_id` -/

theorem withIdsFrom_map_fst {α : Type} :
    ∀ (l : List α) (base : Nat), (withIdsFrom base l).map Prod.fst = l := by
  intro l
  induction l with
  | nil => intro base; rfl
  | cons a t ih => intro base; simp [withIdsFrom, ih]

theorem snd_bounds_of_mem_withIdsFrom {α : Type} :
    ∀ (l : List α) (base : Nat) (x : α × Nat), x ∈ withIdsFrom base l →
      base ≤ x.2 ∧ x.2 < base + l.length := by
  intro l
  induction l with
  | nil => intro base x h; simp [withIdsFrom] at h
  | cons a t ih =>
      intro base x h
      simp only [withIdsFrom, List.mem_cons] at h
      rcases h with h | h
      · subst h
        exact ⟨Nat.le_refl base, by simp only [List.length_cons]; omega⟩
      · have hb := ih (base + 1) x h
        refine ⟨Nat.le_of_succ_le hb.1, ?_⟩
        have hb2 := hb.2
        simp only [List.length_cons]
        omega

theorem pairwise_withIdsFrom {α : Type} :
    ∀ (l : List α) (base : Nat),
      (withIdsFrom base l).Pairwise (fun x y => x.2 < y.2) := by
  intro l
  induction l with
  | nil => intro base; simp [withIdsFrom]
  | cons a t ih =>
      intro base
      simp only [withIdsFrom]
      refine List.pairwise_cons.mpr ⟨?_, ih (base + 1)⟩
      intro y hy
      exact Nat.lt_of_succ_le (snd_bounds_of_mem_withIdsFrom t (base + 1) y hy).1

theorem withIdsFrom_ids {α : Type} :
    ∀ (l : List α) (base : Nat),
      (withIdsFrom base l).map (fun x => x.2 + 1) =
        List.range' (base + 1) l.length := by
  intro l
  induction l with
  | nil => intro base; rfl
  | cons a t ih =>
      intro base
      simp [withIdsFrom, List.range'_succ, ih]

theorem midPartsFrom_map_fst {α : Type} :
    ∀ (parts : List (List α)) (p : Nat),
      (midPartsFrom p parts).map Prod.fst = parts.flatten := by
  intro parts
  induction parts with
  | nil => intro p; rfl
  | cons rows rest ih =>
      intro p
      simp [midPartsFrom, List.map_append, withIdsFrom_map_fst, ih]

theorem lower_bound_of_mem_midPartsFrom {α : Type} :
    ∀ (parts : List (List α)) (p : Nat) (x : α × Nat),
      x ∈ midPartsFrom p parts → p * PART_SHIFT ≤ x.2 := by
  intro parts
  induction parts with
  | nil => intro p x h; simp [midPartsFrom] at h
  | cons rows rest ih =>
      intro p x h
      simp only [midPartsFrom, List.mem_append] at h
      rcases h with h | h
      · exact (snd_bounds_of_mem_withIdsFrom rows (p * PART_SHIFT) x h).1
      · have := ih (p + 1) x h
        exact Nat.le_trans (Nat.mul_le_mul_right PART_SHIFT (Nat.le_succ p)) this

theorem pairwise_midPartsFrom {α : Type} :
    ∀ (parts : List (List α)) (p : Nat),
      (∀ q ∈ parts, q.length ≤ PART_SHIFT) →
      (midPartsFrom p parts).Pairwise (fun x y => x.2 < y.2) := by
  intro parts
  induction parts with
  | nil => intro p _; simp [midPartsFrom]
  | cons rows rest ih =>
      intro p hlen
      simp only [midPartsFrom]
      refine List.pairwise_append.mpr ⟨pairwise_withIdsFrom rows (p * PART_SHIFT),
        ih (p + 1) (fun q hq => hlen q (List.mem_cons_of_mem rows hq)), ?_⟩
      intro x hx y hy
      have hxu : x.2 < p * PART_SHIFT + rows.length :=
        (snd_bounds_of_mem_withIdsFrom rows (p * PART_SHIFT) x hx).2
      have hyl : (p + 1) * PART_SHIFT ≤ y.2 :=
        lower_bound_of_mem_midPartsFrom rest (p + 1) y hy
      have hrows : rows.length ≤ PART_SHIFT := hlen rows (List.mem_cons_self rows rest)
      have : p * PART_SHIFT + rows.length ≤ (p + 1) * PART_SHIFT := by
        calc p * PART_SHIFT + rows.length ≤ p * PART_SHIFT + PART_SHIFT :=
              Nat.add_le_add_left hrows _
          _ = (p + 1) * PART_SHIFT := by ring
      exact Nat.lt_of_lt_of_le hxu (Nat.le_trans this hyl)

theorem songplays_ids_eq (parts : List (List (LogEvent × SongRow))) :
    (songplaysOfParts parts).map SongplayRow.songplay_id =
      (midWithIds parts).map (fun x => x.2 + 1) := by
  rw [songplaysOfParts, List.map_map]
  rfl

/-! ### Facts about the filter and the join -/

theorem isNextSong_eq_false {e : LogEvent} (h : e.page ≠ some "NextSong") :
    isNextSong e = false := by
  simp [isNextSong]
  exact h

theorem filter_middle_of_not_nextSong {e : LogEvent} (l₁ l₂ : List LogEvent)
    (h : isNextSong e = false) :
    (l₁ ++ e :: l₂).filter isNextSong = (l₁ ++ l₂).filter isNextSong := by
  simp [List.filter_append, List.filter_cons, h]

theorem titleMatches_iff {e : LogEvent} {s : SongRow} :
    titleMatches e s = true ↔ ∃ v, e.song = some v ∧ s.title = some v := by
  unfold titleMatches
  cases hes : e.song with
  | none => simp [hes]
  | some a =>
      cases hst : s.title with
      | none => simp
      | some b =>
          simp only [beq_iff_eq]
          constructor
          · intro hab; exact ⟨a, rfl, by rw [hab]⟩
          · rintro ⟨v, hv, hw⟩
            cases hv
            cases hw
            rfl

theorem mem_joinedRows {songs : List SongRow} {events : List LogEvent}
    {x : LogEvent × SongRow} (h : x ∈ joinedRows songs events) :
    x.1 ∈ events ∧ isNextSong x.1 = true ∧ x.2 ∈ songs ∧
      titleMatches x.1 x.2 = true := by
  unfold joinedRows at h
  rcases List.mem_flatMap.mp h with ⟨e, he, hx⟩
  rcases List.mem_map.mp hx with ⟨s, hs, hxs⟩
  rcases List.mem_filter.mp he with ⟨hee, hef⟩
  rcases List.mem_filter.mp hs with ⟨hss, hsf⟩
  subst hxs
  exact ⟨hee, hef, hss, hsf⟩

theorem joinedRows_middle_of_no_match {songs : List SongRow} {e : LogEvent}
    (l₁ l₂ : List LogEvent) (h : ∀ s ∈ songs, titleMatches e s = false) :
    joinedRows songs (l₁ ++ e :: l₂) = joinedRows songs (l₁ ++ l₂) := by
  unfold joinedRows
  by_cases hns : isNextSong e = true
  · have hfil : songs.filter (fun s => titleMatches e s) = [] :=
      List.filter_eq_nil_iff.mpr (by intro s hs; simp [h s hs])
    simp [List.filter_append, List.filter_cons, hns, List.flatMap_append,
      List.flatMap_cons, hfil]
  · have hf : isNextSong e = false := by
      cases hv : isNextSong e
      · rfl
      · exact absurd hv hns
    rw [filter_middle_of_not_nextSong l₁ l₂ hf]

/-! ### Facts about the count-and-report loop -/

theorem tryCountTable_ok (readBack : String → Except String Nat) (t : String) :
    tryCountTable readBack t = Except.ok (countLogOf readBack t) := by
  unfold tryCountTable countLogOf
  cases readBack t <;> rfl

theorem countFold (readBack : String → Except String Nat) :
    ∀ (ts : List String) (acc : List LogEntry),
      List.foldlM
        (fun acc t => (tryCountTable readBack t).map (fun entry => acc ++ [entry]))
        acc ts = Except.ok (acc ++ ts.map (countLogOf readBack)) := by
  intro ts
  induction ts with
  | nil => intro acc; simp; rfl
  | cons t rest ih =>
      intro acc
      have step :
          ((tryCountTable readBack t).map (fun entry => acc ++ [entry]) :
            Except String (List LogEntry)) =
            Except.ok (acc ++ [countLogOf readBack t]) := by
        rw [tryCountTable_ok]
        rfl
      rw [List.foldlM_cons, step]
      show List.foldlM
          (fun acc t => (tryCountTable readBack t).map (fun entry => acc ++ [entry]))
          (acc ++ [countLogOf readBack t]) rest = _
      rw [ih]
      simp

/-! ### Facts about the launcher upload loop -/

theorem uploadLoop_fst (upl : String → Except String S3Response) :
    ∀ (fs : List String) (resp : Option S3Response),
      (uploadLoop upl fs resp).1 = fs := by
  intro fs
  induction fs with
  | nil => intro resp; rfl
  | cons f rest ih => intro resp; simp [uploadLoop, ih]

theorem uploadLoop_some_of_ok (upl : String → Except String S3Response) :
    ∀ (fs : List String) (resp : Option S3Response),
      ((∃ f ∈ fs, ∃ r, upl f = Except.ok r) ∨ resp.isSome = true) →
      ((uploadLoop upl fs resp).2).isSome = true := by
  intro fs
  induction fs with
  | nil =>
      intro resp h
      rcases h with h | h
      · simp at h
      · simpa [uploadLoop] using h
  | cons f rest ih =>
      intro resp h
      cases hf : upl f with
      | ok r =>
          simp only [uploadLoop, hf]
          exact ih (some r) (Or.inr rfl)
      | error m =>
          simp only [uploadLoop, hf]
          rcases h with h | h
          · rcases h with ⟨g, hg, r, hr⟩
            rcases List.mem_cons.mp hg with hgf | hgr
            · subst hgf
              rw [hf] at hr
              exact absurd hr (by simp)
            · exact ih resp (Or.inl ⟨g, hgr, r, hr⟩)
          · exact ih resp (Or.inr h)

theorem uploadLoop_all_fail (upl : String → Except String S3Response) :
    ∀ (fs : List String) (resp : Option S3Response),
      (∀ f ∈ fs, ∃ m, upl f = Except.error m) →
      (uploadLoop upl fs resp).2 = resp := by
  intro fs
  induction fs with
  | nil => intro resp _; rfl
  | cons f rest ih =>
      intro resp h
      rcases h f (List.mem_cons_self f rest) with ⟨m, hm⟩
      simp only [uploadLoop, hm]
      exact ih resp (fun g hg => h g (List.mem_cons_of_mem f hg))

/-! ### Concrete sample records used by witnesses and counterexamples -/

/-- A catalog record matching the scenario of spec section 8. -/
def exRecord : SongRecord :=
  { artist_id := some "ARXYZ456"
    artist_latitude := none
    artist_location := some "London"
    artist_longitude := none
    artist_name := some "Coldplay"
    duration := some 295
    num_songs := some 1
    song_id := some "SOXYZ123"
    title := some "Fix You"
    year := some 2005 }

/-- The `songs` row of `exRecord`. -/
def exSong : SongRow := songRowOf exRecord

/-- A NextSong log event matching the scenario of spec section 8. -/
def exEvent : LogEvent :=
  { artist := some "Coldplay"
    auth := some "Logged In"
    firstName := some "Ryan"
    gender := some "M"
    itemInSession := some 0
    lastName := some "Smith"
    length := some 295
    level := some "free"
    location := some "San Jose"
    method := some "PUT"
    page := some "NextSong"
    registration := some 1541016707796
    sessionId := some 100
    song := some "Fix You"
    status := some 200
    ts := some "1542242870796"
    userAgent := some "Mozilla"
    userId := some "26" }

/-- A permissively parsed catalog record whose `song_id` field was missing:
its projection carries a null `song_id` but a real `title`. -/
def nullIdRecord : SongRecord :=
  { artist_id := some "ARXYZ456"
    artist_latitude := none
    artist_location := none
    artist_longitude := none
    artist_name := some "Coldplay"
    duration := none
    num_songs := none
    song_id := none
    title := some "Fix You"
    year := some 0 }

/-- The `songs` row of `nullIdRecord`; its `song_id` is null. -/
def nullIdSong : SongRow := songRowOf nullIdRecord

/-- A log event on another page: it must contribute nothing to `time` or
`songplays`, even though its `ts` field is not even numeric. -/
def homeEvent : LogEvent :=
  { artist := none
    auth := some "Logged In"
    firstName := some "Ryan"
    gender := some "M"
    itemInSession := some 1
    lastName := some "Smith"
    length := none
    level := some "free"
    location := some "San Jose"
    method := some "GET"
    page := some "Home"
    registration := some 1541016707796
    sessionId := some 100
    song := none
    status := some 200
    ts := some "not-a-timestamp"
    userAgent := some "Mozilla"
    userId := some "26" }

/-- A NextSong event of user 26 on the free level whose gender field reads
`M`. -/
def eventUser26M : LogEvent :=
  { exEvent with gender := some "M", firstName := some "R" }

/-- The same user id and level as `eventUser26M` but a different gender
value: the two project to different full `users` rows that share the
(user id, level) pair. -/
def eventUser26F : LogEvent :=
  { exEvent with gender := some "F", firstName := some "R" }

/-- An upload environment in which every S3 upload raises a client error. -/
def allUploadsFail : String → Except String S3Response :=
  fun _ => .error "ClientError: AccessDenied"

/-- An upload environment in which the first file fails and the second
succeeds. -/
def secondUploadOk : String → Except String S3Response :=
  fun f =>
    match f with
    | "dl.cfg" => .ok { body := "uploaded" }
    | _ => .error "ClientError: AccessDenied"

/-! ### Claim theorems -/

/-- A full run writes exactly the five derived tables, independently of the
store contents left by any earlier run. -/
theorem mainRun_eq (π : Partitioner) (records : List SongRecord)
    (events : List LogEvent) (s : Store) :
    mainRun π records events s =
      { songs := songsTable records
        artists := artistsTable records
        users := usersTable events
        time := timeTable events
        songplays :=
          songplaysOfParts (π (joinedRows (songsTable records) events)) } := rfl

/-- C4, counterexample: two NextSong events with the same user id and level
but different gender values survive `dropDuplicates()` as two distinct
`users` rows sharing the (user_id, level) pair, so the `users` table is not
unique by that combination. -/
theorem users_duplicate_user_level_pair :
    usersTable [eventUser26M, eventUser26F] =
      [userRowOf eventUser26M, userRowOf eventUser26F] ∧
    (userRowOf eventUser26M).user_id = (userRowOf eventUser26F).user_id ∧
    (userRowOf eventUser26M).level = (userRowOf eventUser26F).level ∧
    userRowOf eventUser26M ≠ userRowOf eventUser26F := by
  refine ⟨by decide, rfl, rfl, by decide⟩

/-- C4, amended: the `users` table contains no two rows that are identical
across all of its columns (`dropDuplicates()` with no column list
deduplicates on the full row, not on the (user_id, level) pair). -/
theorem users_rows_pairwise_distinct (events : List LogEvent) :
    (usersTable events).Pairwise (fun r₁ r₂ => r₁ ≠ r₂) :=
  nodup_dropDuplicates _

/-- C5: a log record whose page is not NextSong contributes no row to the
`time` table or to the `songplays` table, whatever its other fields hold:
removing such a record leaves both derived tables unchanged, for every
partition layout the engine may pick for the join result. -/
theorem non_nextsong_contributes_no_time_or_songplays
    (e : LogEvent) (l₁ l₂ : List LogEvent) (songs : List SongRow)
    (π : Partitioner) (h : e.page ≠ some "NextSong") :
    timeTable (l₁ ++ e :: l₂) = timeTable (l₁ ++ l₂) ∧
    joinedRows songs (l₁ ++ e :: l₂) = joinedRows songs (l₁ ++ l₂) ∧
    songplaysOfParts (π (joinedRows songs (l₁ ++ e :: l₂))) =
      songplaysOfParts (π (joinedRows songs (l₁ ++ l₂))) := by
  have hf := isNextSong_eq_false h
  have hjoin : joinedRows songs (l₁ ++ e :: l₂) = joinedRows songs (l₁ ++ l₂) := by
    unfold joinedRows
    rw [filter_middle_of_not_nextSong l₁ l₂ hf]
  refine ⟨?_, hjoin, by rw [hjoin]⟩
  unfold timeTable
  rw [filter_middle_of_not_nextSong l₁ l₂ hf]

/-- C5, witness: a concrete page=Home event with a non-numeric timestamp
contributes nothing to `time` or `songplays`. -/
theorem non_nextsong_contributes_no_time_or_songplays_witness :
    timeTable ([] ++ homeEvent :: [exEvent]) = timeTable ([] ++ [exEvent]) ∧
    joinedRows [exSong] ([] ++ homeEvent :: [exEvent]) =
      joinedRows [exSong] ([] ++ [exEvent]) ∧
    songplaysOfParts
        (singlePartition (joinedRows [exSong] ([] ++ homeEvent :: [exEvent]))) =
      songplaysOfParts
        (singlePartition (joinedRows [exSong] ([] ++ [exEvent]))) :=
  non_nextsong_contributes_no_time_or_songplays homeEvent [] [exEvent] [exSong]
    singlePartition (by decide)

/-- C6: after a full run, none of the four deduplicated tables `songs`,
`artists`, `users`, `time` holds two rows that agree on every column; the
`songplays` table is written without deduplication. -/
theorem dimension_tables_have_no_duplicate_rows
    (π : Partitioner) (records : List SongRecord) (events : List LogEvent)
    (s : Store) :
    (mainRun π records events s).songs.Nodup ∧
    (mainRun π records events s).artists.Nodup ∧
    (mainRun π records events s).users.Nodup ∧
    (mainRun π records events s).time.Nodup := by
  rw [mainRun_eq]
  exact ⟨nodup_dropDuplicates _, nodup_dropDuplicates _,
    nodup_dropDuplicates _, nodup_dropDuplicates _⟩

/-- C7: a second full run on the same inputs (same datasets, same engine
partition layout, no external changes) leaves every output table exactly as
the first run wrote it: each write overwrites, and the run is a function of
the inputs alone. -/
theorem rerun_produces_identical_tables (π : Partitioner)
    (records : List SongRecord) (events : List LogEvent) (s : Store) :
    mainRun π records events (mainRun π records events s) =
      mainRun π records events s :=
  (mainRun_eq π records events _).trans (mainRun_eq π records events s).symm

/-- C10: the `users` and `time` tables are written by the first half of
`process_log_data`, before the `songs` read-back that opens the songplays
stage; whether that stage succeeds or fails in any of its three steps, the
`users` and `time` contents written in the same invocation are still in
place afterwards. -/
theorem users_time_survive_songplays_failure
    (π : Partitioner) (events : List LogEvent)
    (fail : Option SongplaysStageError) (s : Store) :
    (process_log_data π events fail s).1.users = usersTable events ∧
    (process_log_data π events fail s).1.time = timeTable events := by
  cases fail <;> exact ⟨rfl, rfl⟩

/-- C1, amended: every `songplays` row originates from a filtered NextSong
event joined to a `songs` row whose non-null title equals the event's
non-null song field, and the row's `song_id` equals that `songs` row's
`song_id` (which is null exactly when the matched catalog row's `song_id` is
null); conversely a qualifying event whose song matches no catalog title
contributes no joined row, hence no `songplays` row, for any partition
layout of the join result. -/
theorem songplays_rows_from_title_join
    (songs : List SongRow) (events : List LogEvent)
    (parts : List (List (LogEvent × SongRow)))
    (hparts : parts.flatten = joinedRows songs events) :
    (∀ row ∈ songplaysOfParts parts,
      ∃ e s, e ∈ events ∧ isNextSong e = true ∧ s ∈ songs ∧
        (∃ v, e.song = some v ∧ s.title = some v) ∧ row.song_id = s.song_id) ∧
    (∀ e l₁ l₂, events = l₁ ++ e :: l₂ →
      (∀ s ∈ songs, titleMatches e s = false) →
      joinedRows songs events = joinedRows songs (l₁ ++ l₂)) := by
  constructor
  · intro row hrow
    rcases List.mem_map.mp hrow with ⟨x, hx, hrow_eq⟩
    have hx1 : x.1 ∈ parts.flatten := by
      rw [← midPartsFrom_map_fst parts 0]
      exact List.mem_map_of_mem Prod.fst hx
    rw [hparts] at hx1
    rcases mem_joinedRows hx1 with ⟨he, hns, hs, hmatch⟩
    rcases titleMatches_iff.mp hmatch with ⟨v, hv, hw⟩
    exact ⟨x.1.1, x.1.2, he, hns, hs, ⟨v, hv, hw⟩, by rw [← hrow_eq]; rfl⟩
  · intro e l₁ l₂ hev hmatch
    rw [hev]
    exact joinedRows_middle_of_no_match l₁ l₂ hmatch

/-- C1, witness: the spec scenario — the `Fix You` event joined to the
`Fix You` catalog row yields a row whose `song_id` is that of the catalog
row. -/
theorem songplays_rows_from_title_join_witness :
    ∃ e s, e ∈ [exEvent] ∧ isNextSong e = true ∧ s ∈ [exSong] ∧
      (∃ v, e.song = some v ∧ s.title = some v) ∧
      (songplayRowOf (exEvent, exSong) 0).song_id = s.song_id :=
  (songplays_rows_from_title_join [exSong] [exEvent] [[(exEvent, exSong)]]
      (by decide)).1 (songplayRowOf (exEvent, exSong) 0) (by decide)

/-- C1, counterexample: a catalog record parsed with a missing `song_id`
still joins by title, so the resulting `songplays` row carries a null
`song_id` — the non-null part of the claim fails. -/
theorem songplays_song_id_can_be_null :
    songsTable [nullIdRecord] = [nullIdSong] ∧
    joinedRows [nullIdSong] [exEvent] = [(exEvent, nullIdSong)] ∧
    (songplaysOfParts [[(exEvent, nullIdSong)]]).map SongplayRow.song_id =
      [none] :=
  ⟨by decide, by decide, by decide⟩

/-- C2, amended: the `songplay_id` values are pairwise distinct and strictly
increasing in write order whenever each partition holds at most 2^33 joined
rows (Spark's documented bound); on a single-partition run they are exactly
1, 2, ..., n; across several partitions they remain increasing but are not
consecutive. -/
theorem songplay_ids_distinct_increasing :
    (∀ parts : List (List (LogEvent × SongRow)),
      (∀ q ∈ parts, q.length ≤ PART_SHIFT) →
      ((songplaysOfParts parts).map SongplayRow.songplay_id).Pairwise
          (fun a b => a < b) ∧
      ((songplaysOfParts parts).map SongplayRow.songplay_id).Nodup) ∧
    (∀ rows : List (LogEvent × SongRow),
      (songplaysOfParts [rows]).map SongplayRow.songplay_id =
        List.range' 1 rows.length) := by
  constructor
  · intro parts hlen
    have hpw : ((songplaysOfParts parts).map SongplayRow.songplay_id).Pairwise
        (fun a b => a < b) := by
      rw [songplays_ids_eq]
      exact List.Pairwise.map (fun x => x.2 + 1)
        (fun a b h => Nat.succ_lt_succ h)
        (pairwise_midPartsFrom parts 0 hlen)
    exact ⟨hpw, hpw.imp (fun h => Nat.ne_of_lt h)⟩
  · intro rows
    have hmid : midWithIds [rows] = withIdsFrom 0 rows := by
      simp [midWithIds, midPartsFrom]
    rw [songplays_ids_eq, hmid]
    simpa using withIdsFrom_ids rows 0

/-- C2, witness: on a concrete two-partition layout the ids are distinct and
increasing. -/
theorem songplay_ids_distinct_increasing_witness :
    ((songplaysOfParts [[(exEvent, exSong)], [(exEvent, exSong)]]).map
        SongplayRow.songplay_id).Pairwise (fun a b => a < b) ∧
    ((songplaysOfParts [[(exEvent, exSong)], [(exEvent, exSong)]]).map
        SongplayRow.songplay_id).Nodup :=
  songplay_ids_distinct_increasing.1 [[(exEvent, exSong)], [(exEvent, exSong)]]
    (by decide)

/-- C2, counterexample: when the joined rows occupy two partitions, the
second id is 2^33 + 1, not 2 — the ids do not form the gapless sequence
1, 2, 3, ... the claim asserts. -/
theorem songplay_ids_not_consecutive :
    (songplaysOfParts [[(exEvent, exSong)], [(exEvent, exSong)]]).map
        SongplayRow.songplay_id = [1, 8589934593] ∧
    (8589934593 : Nat) ≠ 2 :=
  ⟨by decide, by decide⟩

/-- The `start_time` the claim asserts, stated from the spec's words:
interpret the textual `ts` as epoch milliseconds and convert to the calendar
timestamp of epoch second ts/1000 with the fractional milliseconds kept —
in epoch-millisecond representation, the value `ts` itself. -/
def claimedStartTimeMs (tsMs : Nat) : Nat := tsMs

/-- C3: the claimed derivation is the intent of the code but not its
behaviour.  For ts = "1542242870796" (the spec's own scenario, epoch second
1542242870 = 2018-11-15 00:47:50 UTC), the week-year format of `etl.py`
line 91 snaps the derived `start_time` to 2017-12-31 00:47:50 UTC — the
Sunday opening week 1 of week-year 2018, with the time of day kept — that
is epoch millisecond 1514681270000, while the claim prescribes the
timestamp of epoch second 1542242870.796.  Neither the claimed millisecond
value nor even the claimed calendar date survives, and the `time` row
derived from the snapped value has year 2017 and weekday Sunday. -/
theorem start_time_week_year_snap :
    startTimeOf exEvent = some 1514681270000 ∧
    claimedStartTimeMs 1542242870796 = 1542242870796 ∧
    (1514681270000 : Nat) ≠ 1542242870796 ∧
    (timeRowOf exEvent).year = some 2017 ∧
    (timeRowOf exEvent).weekday = some 1 :=
  ⟨by decide, rfl, by decide, by decide, by decide⟩

/-- C8: the count-and-report phase never fails the job: for every behaviour
of the five table read-backs, `main` succeeds and produces exactly one log
line per output table, in table order — a row count where the read
succeeded and the caught error where it failed — so every table is
attempted regardless of earlier per-table failures, and no read failure
changes the process outcome. -/
theorem count_report_never_fatal
    (π : Partitioner) (records : List SongRecord) (events : List LogEvent)
    (readBack : String → Except String Nat) (s : Store) :
    etlMain π records events readBack s =
      Except.ok (mainRun π records events s, tables.map (countLogOf readBack)) ∧
    (tables.map (countLogOf readBack)).length = 5 := by
  have hphase : countReportPhase readBack =
      Except.ok (tables.map (countLogOf readBack)) := by
    unfold countReportPhase
    simpa using countFold readBack tables []
  constructor
  · unfold etlMain
    rw [hphase]
  · simp [tables]

/-- Unfolding equation for the result value of `upload_files`. -/
theorem upload_files_snd (upl : String → Except String S3Response) :
    (upload_files upl).2 =
      (match (uploadLoop upl launcherFiles none).2 with
       | some r => Except.ok r
       | none => Except.error
           "UnboundLocalError: local variable response referenced before assignment") :=
  rfl

/-- C9, amended: each upload failure is caught per file and both files are
always attempted in order; if at least one upload succeeds, `upload_files`
returns normally and the launcher goes on to create the cluster; if every
upload fails, the `return response` statement raises an unbound-local error
that propagates through `main` and cluster creation is never attempted. -/
theorem upload_failures_caught_per_file
    (upl : String → Except String S3Response) :
    (upload_files upl).1 = launcherFiles ∧
    ((∃ f ∈ launcherFiles, ∃ r, upl f = Except.ok r) →
      ∃ v, (upload_files upl).2 = Except.ok v ∧
        run_main upl = Except.ok { clusterCreated := true }) ∧
    ((∀ f ∈ launcherFiles, ∃ m, upl f = Except.error m) →
      ∃ m, (upload_files upl).2 = Except.error m ∧
        run_main upl = Except.error m) := by
  refine ⟨uploadLoop_fst upl launcherFiles none, ?_, ?_⟩
  · intro hex
    have hsome := uploadLoop_some_of_ok upl launcherFiles none (Or.inl hex)
    cases hres : (uploadLoop upl launcherFiles none).2 with
    | none => rw [hres] at hsome; exact absurd hsome (by simp)
    | some r =>
        have hu : (upload_files upl).2 = Except.ok r := by
          rw [upload_files_snd, hres]
        refine ⟨r, hu, ?_⟩
        unfold run_main
        rw [hu]
  · intro hall
    have hnone := uploadLoop_all_fail upl launcherFiles none hall
    have hu : (upload_files upl).2 = Except.error
        "UnboundLocalError: local variable response referenced before assignment" := by
      rw [upload_files_snd, hnone]
    refine ⟨_, hu, ?_⟩
    unfold run_main
    rw [hu]

/-- C9, witness: with the first upload failing and the second succeeding,
both files are attempted and the launch still reaches cluster creation. -/
theorem upload_failures_caught_per_file_witness :
    (upload_files secondUploadOk).1 = launcherFiles ∧
    ∃ v, (upload_files secondUploadOk).2 = Except.ok v ∧
      run_main secondUploadOk = Except.ok { clusterCreated := true } :=
  ⟨(upload_failures_caught_per_file secondUploadOk).1,
   (upload_failures_caught_per_file secondUploadOk).2.1
     ⟨"dl.cfg", by decide, ⟨{ body := "uploaded" }, rfl⟩⟩⟩

/-- C9, counterexample: when every upload fails, `upload_files` raises the
unbound-local error instead of returning, and `main` therefore never
attempts cluster creation — refuting the claim's parenthetical. -/
theorem upload_all_failures_raises :
    (upload_files allUploadsFail).1 = launcherFiles ∧
    (upload_files allUploadsFail).2 = Except.error
      "UnboundLocalError: local variable response referenced before assignment" ∧
    run_main allUploadsFail = Except.error
      "UnboundLocalError: local variable response referenced before assignment" :=
  ⟨rfl, rfl, rfl⟩

end Sparkify
